import Mathlib

/-!
Verification of the IPLD orchestration-and-ingestion engine.

This file gives a shallow embedding of the core routines of the repository
(CSV ingestion and classification with duration arithmetic, the deployment
orchestrator's emitted snapshots and per-run status map up to the TypeError
that aborts it, the per-host deployment workflow, the dry-run preflight
pipeline, the scheduler registry and ingestion idempotence), and proves or
refutes the specification claims about them.

Sources embedded:
- src/app/infrastructure/ingest/ipl_data_ingest.py  (IPLDataIngestor)
- src/zplatipld_ingest.py                           (legacy ingest)
- src/app/application/services/task_service.py      (TaskService)
- src/app/infrastructure/scheduler/task_scheduler.py (AppScheduler)
-/

namespace IPLD

/-! ## Timestamps: the `%Y-%m-%d %H:%M:%S` format of `datetime.strptime`

`IPLDataIngestor._is_datetime` and the legacy `is_datetime` validate a string
with `datetime.strptime(date_str, "%Y-%m-%d %H:%M:%S")`.  CPython's strptime
compiles each directive to a regular expression: `%Y` matches exactly four
digits; `%m` matches `1[0-2]|0[1-9]|[1-9]`; `%d` matches
`3[01]|[12]\d|0[1-9]|[1-9]`; `%H` matches `2[0-3]|[0-1]\d|\d`; `%M` and `%S`
match `[0-5]\d|\d`; the literal separators must match exactly and no
unconverted data may remain.  The resulting fields are then fed to the
`datetime` constructor, which additionally requires `MINYEAR <= year` and
`day <= days in month`. -/

structure DateTime where
  year : Nat
  month : Nat
  day : Nat
  hour : Nat
  minute : Nat
  second : Nat
deriving DecidableEq, Repr

def digitVal (c : Char) : Nat := c.toNat - 48

/-- `%Y`: exactly four digits. -/
def parseYear4 (cs : List Char) : Option (Nat × List Char) :=
  match cs with
  | a :: b :: c :: d :: rest =>
    if a.isDigit && b.isDigit && c.isDigit && d.isDigit then
      some (1000 * digitVal a + 100 * digitVal b + 10 * digitVal c + digitVal d, rest)
    else none
  | _ => none

/-- A one-or-two-digit field: take two digits when their value is admissible
as a two-digit form (`ok2`), else fall back to one digit (`ok1`), mirroring
the alternation of the strptime regexes. -/
def parseNum2 (ok2 ok1 : Nat → Bool) (cs : List Char) : Option (Nat × List Char) :=
  match cs with
  | a :: b :: rest =>
    if a.isDigit then
      if b.isDigit && ok2 (10 * digitVal a + digitVal b) then
        some (10 * digitVal a + digitVal b, rest)
      else if ok1 (digitVal a) then some (digitVal a, b :: rest)
      else none
    else none
  | [a] => if a.isDigit && ok1 (digitVal a) then some (digitVal a, []) else none
  | [] => none

def parseLit (c : Char) (cs : List Char) : Option (List Char) :=
  match cs with
  | x :: rest => if x == c then some rest else none
  | [] => none

/-- Whitespace in a strptime format is compiled to `\s+`: consume one or
more whitespace characters. -/
def parseWs (cs : List Char) : Option (List Char) :=
  match cs with
  | x :: rest => if x.isWhitespace then some (rest.dropWhile Char.isWhitespace) else none
  | [] => none

def isLeapYear (y : Nat) : Bool :=
  (y % 4 == 0 && y % 100 != 0) || y % 400 == 0

def daysInMonth (y m : Nat) : Nat :=
  if m == 2 then (if isLeapYear y then 29 else 28)
  else if m == 4 || m == 6 || m == 9 || m == 11 then 30
  else 31

/-- Parse a `YYYY-MM-DD HH:MM:SS` string the way
`datetime.strptime(s, "%Y-%m-%d %H:%M:%S")` does, returning `none` where the
source raises `ValueError`. -/
def parseDateTime (s : String) : Option DateTime := do
  let (y, r1) ← parseYear4 s.data
  let r2 ← parseLit '-' r1
  let (mo, r3) ← parseNum2 (fun v => decide (1 ≤ v ∧ v ≤ 12)) (fun v => decide (1 ≤ v)) r2
  let r4 ← parseLit '-' r3
  let (d, r5) ← parseNum2 (fun v => decide (1 ≤ v ∧ v ≤ 31)) (fun v => decide (1 ≤ v)) r4
  let r6 ← parseWs r5
  let (h, r7) ← parseNum2 (fun v => decide (v ≤ 23)) (fun _ => true) r6
  let r8 ← parseLit ':' r7
  let (mi, r9) ← parseNum2 (fun v => decide (v ≤ 59)) (fun _ => true) r8
  let r10 ← parseLit ':' r9
  let (se, r11) ← parseNum2 (fun v => decide (v ≤ 59)) (fun _ => true) r10
  guard (r11 = [])
  guard (1 ≤ y)
  guard (d ≤ daysInMonth y mo)
  pure ⟨y, mo, d, h, mi, se⟩

/-- `IPLDataIngestor._is_datetime` / legacy `is_datetime`: `False` for `None`
(a SQL NULL), otherwise whether `strptime` accepts the string. -/
def is_datetime (o : Option String) : Bool :=
  match o with
  | none => false
  | some s => (parseDateTime s).isSome

/-- Days since 1970-01-01 of a civil date (Howard Hinnant's `days_from_civil`
algorithm, using floor division as `fdiv`). -/
def daysFromCivil (y m d : Int) : Int :=
  let y' := if m ≤ 2 then y - 1 else y
  let era := y'.fdiv 400
  let yoe := y' - era * 400
  let mp := (m + 9) % 12
  let doy := (153 * mp + 2).fdiv 5 + d - 1
  let doe := yoe * 365 + yoe.fdiv 4 - yoe.fdiv 100 + doy
  era * 146097 + doe - 719468

/-- Epoch seconds of a parsed timestamp.  `_convert_to_unix_timestamp` uses
`datetime.timestamp()`, which interprets the naive datetime in local time; we
model it as naive UTC epoch seconds.  The ingest code only ever uses
differences of two such values, where a fixed UTC offset cancels. -/
def toEpoch (dt : DateTime) : Int :=
  86400 * daysFromCivil dt.year dt.month dt.day
    + 3600 * dt.hour + 60 * dt.minute + dt.second

/-- `IPLDataIngestor._convert_to_unix_timestamp`, with the `ValueError` of an
unparsable string modelled as `none`. -/
def convert_to_unix_timestamp (s : String) : Option Int :=
  (parseDateTime s).map toEpoch

/-! ## Duration rendering

Both renderers format each numeric field with a Python format spec of width
two (`f"{x:02}"` in the new code, `f"{x:0>{2}}"` in the legacy code).  At
width two the two specs agree on every integer: a negative number already
occupies at least two characters (sign plus a digit) so neither spec pads it,
and a non-negative number gets one leading zero exactly when it has a single
digit. -/

def padTwo (n : Int) : String :=
  if n < 0 then toString n
  else if n < 10 then "0" ++ toString n
  else toString n

/-- `IPLDataIngestor._calc_time_duration`: divmod-based rendering of a
seconds count as `HH:MM:SS`, accumulating whole days into the hour field.
Python `//` and `%` are floor division and floor remainder (`fdiv`/`fmod`). -/
def calc_time_duration (u_timestamp : Int) : String :=
  let passedHours : Int := if 86400 ≤ u_timestamp then (u_timestamp.fdiv 86400) * 24 else 0
  let u1 : Int := if 86400 ≤ u_timestamp then u_timestamp.fmod 86400 else u_timestamp
  let passedHours := passedHours + u1.fdiv 3600
  let u2 := u1.fmod 3600
  let passedMinutes := u2.fdiv 60
  let u3 := u2.fmod 60
  padTwo passedHours ++ ":" ++ padTwo passedMinutes ++ ":" ++ padTwo u3

/-- The day loop of the legacy `calc_time`: `while (u / 86400) >= 1` (true
division, so the guard holds iff `86400 <= u`) subtracts 86400 and adds 24
hours per iteration.  Returns (final value, hours added). -/
def dayLoop (u : Int) : Int × Int :=
  if 86400 ≤ u then
    let p := dayLoop (u - 86400)
    (p.1, p.2 + 24)
  else (u, 0)
termination_by u.toNat
decreasing_by simp_wf; omega

/-- The hour loop of the legacy `calc_time`: `while (u / 3600) >= 1`. -/
def hourLoop (u : Int) : Int × Int :=
  if 3600 ≤ u then
    let p := hourLoop (u - 3600)
    (p.1, p.2 + 1)
  else (u, 0)
termination_by u.toNat
decreasing_by simp_wf; omega

/-- The minute loop of the legacy `calc_time`: `while (u / 60) >= 1`. -/
def minLoop (u : Int) : Int × Int :=
  if 60 ≤ u then
    let p := minLoop (u - 60)
    (p.1, p.2 + 1)
  else (u, 0)
termination_by u.toNat
decreasing_by simp_wf; omega

/-- Legacy `calc_time` from src/zplatipld_ingest.py: repeated-subtraction
loops, with an outer branch on `u_timestamp > 86400` (strict). -/
def calc_time (u_timestamp : Int) : String :=
  if 86400 < u_timestamp then
    let p1 := dayLoop u_timestamp
    let p2 := hourLoop p1.1
    let p3 := minLoop p2.1
    padTwo (p1.2 + p2.2) ++ ":" ++ padTwo p3.2 ++ ":" ++ padTwo p3.1
  else
    let p2 := hourLoop u_timestamp
    let p3 := minLoop p2.1
    padTwo p2.2 ++ ":" ++ padTwo p3.2 ++ ":" ++ padTwo p3.1

/-! ## Row classification (`IPLDataIngestor.ingest_duration_data`) -/

/-- One row of the `raw_results` table, every column nullable text. -/
structure RawRow where
  sysname : Option String
  log_dataset : Option String
  shutdown_begin : Option String
  shutdown_end : Option String
  ipl_begin : Option String
  ipl_end : Option String
  pre_ipl : Option String
  pos_ipl : Option String
  last_ipl : Option String
deriving DecidableEq, Repr

inductive Bucket where
  | done
  | fail
  | garb
deriving DecidableEq, Repr

/-- All four core timestamps parse (the `if` guard of the classification). -/
def valid_ipl_times (r : RawRow) : Bool :=
  is_datetime r.shutdown_begin && is_datetime r.shutdown_end
    && is_datetime r.ipl_begin && is_datetime r.ipl_end

/-- `IPLDataIngestor.ingest_duration_data` — the rewritten classifier — never
reaches its classification branch: it builds `query` as a 3-tuple (the
string, the table name and the sysname tuple, with the `%` placeholders
never applied) and passes that tuple to `cursor.execute`, which accepts only
a string, so the call raises TypeError before any row is read.  An empty
sysname list prints and returns early instead.  We model the call's outcome. -/
def ingest_duration_data (sysname_list : List String) : Except Unit Unit :=
  if sysname_list.isEmpty then Except.ok () else Except.error ()

/-- The classifier that actually executes: the per-row branch of the legacy
`duration_ingest` (src/zplatipld_ingest.py).  Its `elif` guard
`not is_datetime(row[2]) or ... or not is_datetime(row[5])` is the exact
negation of the `if` guard, so it fires for every non-Done row and the
`else` (garbage) branch is dead code. -/
def classify_row (r : RawRow) : Bucket :=
  if is_datetime r.shutdown_begin && is_datetime r.shutdown_end
      && is_datetime r.ipl_begin && is_datetime r.ipl_end then
    Bucket.done
  else if !(is_datetime r.shutdown_begin) || !(is_datetime r.shutdown_end)
      || !(is_datetime r.ipl_begin) || !(is_datetime r.ipl_end) then
    Bucket.fail
  else
    Bucket.garb

/-- Number of core timestamps that are valid datetimes. -/
def validCount (r : RawRow) : Nat :=
  (if is_datetime r.shutdown_begin then 1 else 0)
    + (if is_datetime r.shutdown_end then 1 else 0)
    + (if is_datetime r.ipl_begin then 1 else 0)
    + (if is_datetime r.ipl_end then 1 else 0)

/-- The four epoch values of a row whose core timestamps all parse
(shutdown_begin, shutdown_end, ipl_begin, ipl_end). -/
def rowEpochs (r : RawRow) : Option (Int × Int × Int × Int) :=
  match r.shutdown_begin, r.shutdown_end, r.ipl_begin, r.ipl_end with
  | some sb, some se, some ib, some ie =>
    match convert_to_unix_timestamp sb, convert_to_unix_timestamp se,
        convert_to_unix_timestamp ib, convert_to_unix_timestamp ie with
    | some e1, some e2, some e3, some e4 => some (e1, e2, e3, e4)
    | _, _, _, _ => none
  | _, _, _, _ => none

/-- The four duration strings stored on a Done row by the executing legacy
`duration_ingest`: shutdown, poweroff, load and total duration, each a
`calc_time` of a difference of `convert_to_unix_timestamp` values. -/
def rowDurations (r : RawRow) : Option (String × String × String × String) :=
  (rowEpochs r).map fun e =>
    (calc_time (e.2.1 - e.1),
     calc_time (e.2.2.1 - e.2.1),
     calc_time (e.2.2.2 - e.2.2.1),
     calc_time (e.2.2.2 - e.1))

/-- Split a character list at every colon. -/
def splitColon (cs : List Char) : List (List Char) :=
  match cs with
  | [] => [[]]
  | c :: rest =>
    if c == ':' then [] :: splitColon rest
    else
      match splitColon rest with
      | g :: gs => (c :: g) :: gs
      | [] => [[c]]

/-- A well-formed `HH:MM:SS` rendering: three all-digit fields, the hour
field at least two digits, minutes and seconds exactly two. -/
def isHHMMSS (s : String) : Bool :=
  match splitColon s.data with
  | [h, m, sec] =>
    decide (2 ≤ h.length) && h.all (·.isDigit)
      && (m.length == 2) && m.all (·.isDigit)
      && (sec.length == 2) && sec.all (·.isDigit)
  | _ => false

/-- The `HH:MM:SS` rendering of a non-negative seconds count as the spec
describes it: the hour field is the total number of whole hours (whole 24h
blocks accumulated into it, no day wraparound), then minutes and seconds. -/
def renderHHMMSS (n : Nat) : String :=
  padTwo ↑(n / 3600) ++ ":" ++ padTwo ↑(n % 3600 / 60) ++ ":" ++ padTwo ↑(n % 3600 % 60)

/-! ## Arithmetic lemmas for the duration renderers -/

lemma calc_time_duration_nat (n : Nat) :
    calc_time_duration ↑n = renderHHMMSS n := by
  have hf1 : ∀ a : Int, a.fdiv 86400 = a / 86400 := fun a => Int.fdiv_eq_ediv a (by norm_num)
  have hf2 : ∀ a : Int, a.fdiv 3600 = a / 3600 := fun a => Int.fdiv_eq_ediv a (by norm_num)
  have hf3 : ∀ a : Int, a.fdiv 60 = a / 60 := fun a => Int.fdiv_eq_ediv a (by norm_num)
  have hm1 : ∀ a : Int, a.fmod 86400 = a % 86400 := fun a => Int.fmod_eq_emod a (by norm_num)
  have hm2 : ∀ a : Int, a.fmod 3600 = a % 3600 := fun a => Int.fmod_eq_emod a (by norm_num)
  have hm3 : ∀ a : Int, a.fmod 60 = a % 60 := fun a => Int.fmod_eq_emod a (by norm_num)
  unfold calc_time_duration renderHHMMSS
  by_cases hc : (86400 : Int) ≤ ↑n
  · simp only [if_pos hc, hf1, hf2, hf3, hm1, hm2, hm3]
    have e1 : (↑n : Int) / 86400 * 24 + ↑n % 86400 / 3600 = ↑(n / 3600) := by omega
    have e2 : ((↑n : Int) % 86400) % 3600 / 60 = ↑(n % 3600 / 60) := by omega
    have e3 : ((↑n : Int) % 86400) % 3600 % 60 = ↑(n % 3600 % 60) := by omega
    rw [e1, e2, e3]
  · simp only [if_neg hc, hf1, hf2, hf3, hm1, hm2, hm3, zero_add]
    have e1 : (↑n : Int) / 3600 = ↑(n / 3600) := by omega
    have e2 : (↑n : Int) % 3600 / 60 = ↑(n % 3600 / 60) := by omega
    have e3 : (↑n : Int) % 3600 % 60 = ↑(n % 3600 % 60) := by omega
    rw [e1, e2, e3]

lemma dayLoop_nat (n : Nat) : dayLoop ↑n = (↑(n % 86400), ↑(24 * (n / 86400))) := by
  induction n using Nat.strong_induction_on with
  | _ n ih =>
    rw [dayLoop]
    by_cases hc : (86400 : Int) ≤ ↑n
    · have hn : 86400 ≤ n := by exact_mod_cast hc
      obtain ⟨m, rfl⟩ : ∃ m, n = m + 86400 := ⟨n - 86400, by omega⟩
      have hcast : ((m + 86400 : Nat) : Int) - 86400 = ↑m := by push_cast; ring
      rw [if_pos hc, hcast, ih m (by omega)]
      have e1 : (m + 86400) % 86400 = m % 86400 := by omega
      have e2 : (24 * ((m + 86400) / 86400) : Nat) = 24 * (m / 86400) + 24 := by omega
      rw [e1, e2]
      simp [Prod.ext_iff]
    · have hn : n < 86400 := by omega
      rw [if_neg hc]
      have e1 : n % 86400 = n := by omega
      have e2 : 24 * (n / 86400) = 0 := by omega
      rw [e1, e2]
      rfl

lemma hourLoop_nat (n : Nat) : hourLoop ↑n = (↑(n % 3600), ↑(n / 3600)) := by
  induction n using Nat.strong_induction_on with
  | _ n ih =>
    rw [hourLoop]
    by_cases hc : (3600 : Int) ≤ ↑n
    · have hn : 3600 ≤ n := by exact_mod_cast hc
      obtain ⟨m, rfl⟩ : ∃ m, n = m + 3600 := ⟨n - 3600, by omega⟩
      have hcast : ((m + 3600 : Nat) : Int) - 3600 = ↑m := by push_cast; ring
      rw [if_pos hc, hcast, ih m (by omega)]
      have e1 : (m + 3600) % 3600 = m % 3600 := by omega
      have e2 : ((m + 3600) / 3600 : Nat) = m / 3600 + 1 := by omega
      rw [e1, e2]
      simp [Prod.ext_iff]
    · have hn : n < 3600 := by omega
      rw [if_neg hc]
      have e1 : n % 3600 = n := by omega
      have e2 : n / 3600 = 0 := by omega
      rw [e1, e2]
      rfl

lemma minLoop_nat (n : Nat) : minLoop ↑n = (↑(n % 60), ↑(n / 60)) := by
  induction n using Nat.strong_induction_on with
  | _ n ih =>
    rw [minLoop]
    by_cases hc : (60 : Int) ≤ ↑n
    · have hn : 60 ≤ n := by exact_mod_cast hc
      obtain ⟨m, rfl⟩ : ∃ m, n = m + 60 := ⟨n - 60, by omega⟩
      have hcast : ((m + 60 : Nat) : Int) - 60 = ↑m := by push_cast; ring
      rw [if_pos hc, hcast, ih m (by omega)]
      have e1 : (m + 60) % 60 = m % 60 := by omega
      have e2 : ((m + 60) / 60 : Nat) = m / 60 + 1 := by omega
      rw [e1, e2]
      simp [Prod.ext_iff]
    · have hn : n < 60 := by omega
      rw [if_neg hc]
      have e1 : n % 60 = n := by omega
      have e2 : n / 60 = 0 := by omega
      rw [e1, e2]
      rfl

lemma calc_time_nat (n : Nat) : calc_time ↑n = renderHHMMSS n := by
  unfold calc_time renderHHMMSS
  by_cases hc : (86400 : Int) < ↑n
  · rw [if_pos hc, dayLoop_nat]
    simp only
    rw [hourLoop_nat, minLoop_nat]
    simp only
    have e1 : (↑(24 * (n / 86400)) : Int) + ↑(n % 86400 / 3600) = ↑(n / 3600) := by omega
    have e2 : (n % 86400 % 3600 / 60 : Nat) = n % 3600 / 60 := by omega
    have e3 : (n % 86400 % 3600 % 60 : Nat) = n % 3600 % 60 := by omega
    rw [e1, e2, e3]
  · rw [if_neg hc, hourLoop_nat]
    simp only
    rw [minLoop_nat]

lemma calc_time_duration_of_nonneg {z : Int} (hz : 0 ≤ z) :
    calc_time_duration z = renderHHMMSS z.toNat := by
  have h : (z.toNat : Int) = z := Int.toNat_of_nonneg hz
  conv_lhs => rw [← h]
  rw [calc_time_duration_nat]

lemma calc_time_of_nonneg {z : Int} (hz : 0 ≤ z) :
    calc_time z = renderHHMMSS z.toNat := by
  have h : (z.toNat : Int) = z := Int.toNat_of_nonneg hz
  conv_lhs => rw [← h]
  rw [calc_time_nat]

/-- On a non-positive seconds count every loop of the legacy `calc_time`
exits immediately: the hour and minute fields render "00" and the remainder
field carries the whole (negative) count. -/
lemma calc_time_nonpos {z : Int} (hz : z ≤ 0) :
    calc_time z = "00:00:" ++ padTwo z := by
  have h1 : ¬(86400 < z) := by omega
  have h2 : ¬(3600 ≤ z) := by omega
  have h3 : ¬(60 ≤ z) := by omega
  have hh : hourLoop z = (z, 0) := by
    rw [hourLoop, if_neg h2]
  have hm : minLoop z = (z, 0) := by
    rw [minLoop, if_neg h3]
  unfold calc_time
  rw [if_neg h1]
  show padTwo (hourLoop z).2 ++ ":" ++ padTwo (minLoop (hourLoop z).1).2 ++ ":"
      ++ padTwo (minLoop (hourLoop z).1).1 = "00:00:" ++ padTwo z
  rw [hh]
  dsimp only
  rw [hm]
  rfl

/-! ## Classification helper lemmas -/

lemma rowEpochs_valid {r : RawRow} {t : Int × Int × Int × Int}
    (h : rowEpochs r = some t) : valid_ipl_times r = true := by
  unfold rowEpochs at h
  cases hsb : r.shutdown_begin with
  | none => rw [hsb] at h; simp at h
  | some sb =>
  cases hse : r.shutdown_end with
  | none => rw [hsb, hse] at h; simp at h
  | some se =>
  cases hib : r.ipl_begin with
  | none => rw [hsb, hse, hib] at h; simp at h
  | some ib =>
  cases hie : r.ipl_end with
  | none => rw [hsb, hse, hib, hie] at h; simp at h
  | some ie =>
    rw [hsb, hse, hib, hie] at h
    dsimp only at h
    cases h1 : convert_to_unix_timestamp sb with
    | none => rw [h1] at h; simp at h
    | some e1 =>
    cases h2 : convert_to_unix_timestamp se with
    | none => rw [h1, h2] at h; simp at h
    | some e2 =>
    cases h3 : convert_to_unix_timestamp ib with
    | none => rw [h1, h2, h3] at h; simp at h
    | some e3 =>
    cases h4 : convert_to_unix_timestamp ie with
    | none => rw [h1, h2, h3, h4] at h; simp at h
    | some e4 =>
      unfold valid_ipl_times is_datetime
      rw [hsb, hse, hib, hie]
      unfold convert_to_unix_timestamp at h1 h2 h3 h4
      cases p1 : parseDateTime sb <;> rw [p1] at h1 <;> try simp at h1
      cases p2 : parseDateTime se <;> rw [p2] at h2 <;> try simp at h2
      cases p3 : parseDateTime ib <;> rw [p3] at h3 <;> try simp at h3
      cases p4 : parseDateTime ie <;> rw [p4] at h4 <;> try simp at h4
      simp [p1, p2, p3, p4]

/-! ## Claim C1: classification partition -/

/-- A row whose four core timestamps are all NULL: zero valid timestamps and
nothing present at all. -/
def rowAllNull : RawRow :=
  ⟨some "SYS1", some "DS", none, none, none, none, none, none, none⟩

/-- C1 (counterexample): a row with zero valid core timestamps — here even
with all four columns NULL — does NOT classify Garbage: the executing legacy
classifier's `elif` guard is the negation of the `if` guard, so every
non-Done row, this one included, classifies Fail. -/
theorem zero_valid_row_not_garbage :
    validCount rowAllNull = 0 ∧ classify_row rowAllNull = Bucket.fail := by
  exact ⟨by decide, by decide⟩

/-- C1 (amended): classification by the executing legacy `duration_ingest`
is a total, disjoint partition (no row lands in more than one bucket), but
the mapping is: all four core timestamps valid classifies Done, and every
other row — 1–3 valid as the claim says, but also zero valid — classifies
Fail; no row ever classifies Garbage, that branch being dead code.  The
rewritten `ingest_duration_data` raises TypeError at its tuple-valued query
before classifying anything. -/
theorem classification_partition (r : RawRow) :
    (classify_row r = Bucket.done ↔ valid_ipl_times r = true)
    ∧ (classify_row r = Bucket.fail ↔ valid_ipl_times r = false)
    ∧ classify_row r ≠ Bucket.garb
    ∧ (validCount r = 4 → classify_row r = Bucket.done)
    ∧ (validCount r ≤ 3 → classify_row r = Bucket.fail)
    ∧ ingest_duration_data ["SYSA"] = Except.error () := by
  refine ⟨?_, ?_, ?_, ?_, ?_, rfl⟩ <;>
  · simp only [classify_row, valid_ipl_times, validCount]
    cases c1 : is_datetime r.shutdown_begin <;> cases c2 : is_datetime r.shutdown_end <;>
      cases c3 : is_datetime r.ipl_begin <;> cases c4 : is_datetime r.ipl_end <;>
      simp_all

/-- A row with exactly two valid core timestamps. -/
def rowTwoValid : RawRow :=
  ⟨some "SYS1", some "DS", some "2024-01-01 10:00:00", some "2024-01-01 10:05:30",
   none, none, none, none, none⟩

/-- Witness for `classification_partition`: a concrete row with two valid
timestamps classifies Fail. -/
theorem classification_partition_witness :
    classify_row rowTwoValid = Bucket.fail := by
  obtain ⟨-, -, -, -, h5, -⟩ := classification_partition rowTwoValid
  exact h5 (by decide)

/-! ## Claim C2: duration rendering on Done rows -/

/-- An all-valid row whose shutdown end precedes its shutdown begin by 10
seconds. -/
def rowUnordered : RawRow :=
  ⟨some "SYS1", some "DS", some "2024-01-01 10:00:10", some "2024-01-01 10:00:00",
   some "2024-01-01 10:00:00", some "2024-01-01 10:00:00", none, none, none⟩

/-- C2 (counterexample): the executing legacy pipeline classifies this
out-of-order row Done and stores `calc_time(-10) = "00:00:-10"`, which is
not a well-formed `HH:MM:SS` rendering — refuting the claim when read over
every Done row.  (The rewritten `ingest_duration_data` raises TypeError at
its tuple-valued query before storing anything at all.) -/
theorem done_row_duration_not_hhmmss :
    classify_row rowUnordered = Bucket.done
    ∧ rowDurations rowUnordered = some ("00:00:-10", "00:00:00", "00:00:00", "00:00:-10")
    ∧ isHHMMSS "00:00:-10" = false
    ∧ ingest_duration_data ["SYS1"] = Except.error () := by
  refine ⟨by decide, ?_, by decide, rfl⟩
  have hE : rowEpochs rowUnordered
      = some (1704103210, 1704103200, 1704103200, 1704103200) := by decide
  unfold rowDurations
  rw [hE]
  simp only [Option.map_some']
  have d1 : (1704103200 : Int) - 1704103210 = -10 := by norm_num
  have d2 : (1704103200 : Int) - 1704103200 = 0 := by norm_num
  rw [d1, d2, calc_time_nonpos (by norm_num : (-10 : Int) ≤ 0),
    calc_time_nonpos (by norm_num : (0 : Int) ≤ 0)]
  decide

/-- C2 (amended): for every Done row whose four timestamps are in
chronological order, each of the four durations computed and stored by the
executing legacy `duration_ingest` is rendered as an `HH:MM:SS` string whose
hour field accumulates whole 24h blocks (no day wraparound truncation):
e.g. 330 seconds yields "00:05:30" and a 30-hour span yields "30:00:00"
(see the witness). -/
theorem done_row_durations_rendered (r : RawRow) (e1 e2 e3 e4 : Int)
    (hE : rowEpochs r = some (e1, e2, e3, e4))
    (h12 : e1 ≤ e2) (h23 : e2 ≤ e3) (h34 : e3 ≤ e4) :
    classify_row r = Bucket.done
    ∧ rowDurations r = some (renderHHMMSS (e2 - e1).toNat, renderHHMMSS (e3 - e2).toNat,
        renderHHMMSS (e4 - e3).toNat, renderHHMMSS (e4 - e1).toNat) := by
  have hv := rowEpochs_valid hE
  unfold valid_ipl_times at hv
  constructor
  · unfold classify_row
    rw [hv]
    rfl
  · unfold rowDurations
    rw [hE]
    simp only [Option.map_some']
    rw [calc_time_of_nonneg (by omega), calc_time_of_nonneg (by omega),
        calc_time_of_nonneg (by omega), calc_time_of_nonneg (by omega)]

/-- The spec's own example: shutdown 2024-01-01 10:00:00 → 10:05:30 (330 s),
then an IPL ending 2024-01-02 16:00:00, a 30-hour total span. -/
def rowThirtyHours : RawRow :=
  ⟨some "SYS1", some "DS", some "2024-01-01 10:00:00", some "2024-01-01 10:05:30",
   some "2024-01-01 10:05:30", some "2024-01-02 16:00:00", none, none, none⟩

/-- Witness for `done_row_durations_rendered`: the 330-second shutdown renders
"00:05:30" and the 30-hour total renders "30:00:00", not "06:00:00". -/
theorem done_row_durations_rendered_witness :
    classify_row rowThirtyHours = Bucket.done
    ∧ rowDurations rowThirtyHours = some ("00:05:30", "00:00:00", "29:54:30", "30:00:00") := by
  have h := done_row_durations_rendered rowThirtyHours
    1704103200 1704103530 1704103530 1704211200
    (by decide) (by decide) (by decide) (by decide)
  refine ⟨h.1, ?_⟩
  rw [h.2]
  decide

/-! ## Claim C9: the two renderers agree on non-negative seconds -/

/-- C9: for every non-negative integer seconds count, the divmod-based
`IPLDataIngestor._calc_time_duration` and the legacy repeated-subtraction
`calc_time` produce the identical string. -/
theorem calc_time_duration_eq_calc_time (n : Nat) :
    calc_time_duration ↑n = calc_time ↑n := by
  rw [calc_time_duration_nat, calc_time_nat]

/-! ## Claim C10: negative durations on out-of-order Done rows -/

/-- An all-valid row whose shutdown end precedes its shutdown begin by 5
seconds. -/
def rowNegFive : RawRow :=
  ⟨some "SYS1", some "DS", some "2024-01-01 10:00:05", some "2024-01-01 10:00:00",
   some "2024-01-01 10:00:00", some "2024-01-01 10:00:00", none, none, none⟩

/-- C10: a row with four valid but out-of-order timestamps still classifies
Done, and the duration stored for it is not a well-formed two-digit
`HH:MM:SS` value: the executing legacy pipeline stores
`calc_time(-5) = "00:00:-5"`, a string with a negative component, and the
claim's cited rewritten renderer indeed satisfies
`_calc_time_duration(-5) = "-1:59:55"` (the rewritten
`ingest_duration_data` itself raises TypeError before storing anything). -/
theorem unordered_done_row_negative_duration :
    classify_row rowNegFive = Bucket.done
    ∧ rowDurations rowNegFive = some ("00:00:-5", "00:00:00", "00:00:00", "00:00:-5")
    ∧ isHHMMSS "00:00:-5" = false
    ∧ calc_time_duration (-5) = "-1:59:55"
    ∧ isHHMMSS "-1:59:55" = false
    ∧ ingest_duration_data ["SYS1"] = Except.error () := by
  refine ⟨by decide, ?_, by decide, by decide, by decide, rfl⟩
  have hE : rowEpochs rowNegFive
      = some (1704103205, 1704103200, 1704103200, 1704103200) := by decide
  unfold rowDurations
  rw [hE]
  simp only [Option.map_some']
  have d1 : (1704103200 : Int) - 1704103205 = -5 := by norm_num
  have d2 : (1704103200 : Int) - 1704103200 = 0 := by norm_num
  rw [d1, d2, calc_time_nonpos (by norm_num : (-5 : Int) ≤ 0),
    calc_time_nonpos (by norm_num : (0 : Int) ≤ 0)]
  decide

/-! ## Dry-run preflight pipeline (`TaskService._perform_dry_run_checks`)

The four check outcomes are the string fields of `DryRunStatusDTO`, all
initialized to "wait".  The firewall check is a call on the network-policy
collaborator returning a boolean (or raising); the remaining three checks
come from one `check_ssh_connection` remote call returning a dict (or
raising).  We model each external call as an `Except` value and return the
list of emitted `dry_run` snapshots together with whether the ssh remote
call was made. -/

structure SshChecksResult where
  check_ssh_login : Option String
  check_dataset_access : Option Int
  check_tmp_space : Option Int
deriving DecidableEq, Repr

structure DryRunStatus where
  firewall_rules : String := "wait"
  check_ssh_login : String := "wait"
  check_dataset_access : String := "wait"
  check_tmp_space : String := "wait"
deriving DecidableEq, Repr

def allErrorStatus : DryRunStatus :=
  ⟨"error", "error", "error", "error"⟩

/-- `TaskService._perform_dry_run_checks`: emit the initial all-wait status;
run the firewall check (an exception jumps to the handler that marks all four
fields "error" and emits); emit the updated status and return early when the
firewall check failed; otherwise make the one ssh remote call (an exception
again marks all four "error") and emit the final status.  Returns the emitted
snapshots and whether the ssh call was made. -/
def perform_dry_run_checks (firewall : Except Unit Bool)
    (ssh : Except Unit SshChecksResult) (username : String) :
    List DryRunStatus × Bool :=
  let s0 : DryRunStatus := {}
  match firewall with
  | Except.error _ => ([s0, allErrorStatus], false)
  | Except.ok fwOk =>
    let s1 : DryRunStatus := { s0 with firewall_rules := if fwOk then "done" else "error" }
    if !fwOk then ([s0, s1], false)
    else
      match ssh with
      | Except.error _ => ([s0, s1, allErrorStatus], true)
      | Except.ok res =>
        let s2 : DryRunStatus := { s1 with
          check_ssh_login := if res.check_ssh_login == some username then "done" else "error"
          check_dataset_access := if 1 < res.check_dataset_access.getD 0 then "done" else "error"
          check_tmp_space := if res.check_tmp_space.getD 100 < 60 then "done" else "error" }
        ([s0, s1, s2], true)

/-! ## Claim C3: firewall short-circuit -/

/-- C3 (counterexample): when the firewall check returns False (fails, as
opposed to raising), the run returns right after emitting the snapshot in
which the three remaining checks are still "wait" — they are NOT marked
Error.  No ssh remote call is made. -/
theorem firewall_fail_leaves_checks_wait :
    perform_dry_run_checks (Except.ok false) (Except.ok ⟨some "USR", some 5, some 10⟩) "USR"
      = ([⟨"wait", "wait", "wait", "wait"⟩, ⟨"error", "wait", "wait", "wait"⟩], false)
    ∧ (⟨"error", "wait", "wait", "wait"⟩ : DryRunStatus).check_ssh_login ≠ "error" := by
  exact ⟨by decide, by decide⟩

/-- C3 (amended): the firewall stage short-circuits in both failure modes and
no further remote call is made, but only the exception path marks the
remaining three checks Error; the returned-False path leaves them "wait". -/
theorem dry_run_firewall_short_circuit (ssh : Except Unit SshChecksResult) (username : String) :
    perform_dry_run_checks (Except.error ()) ssh username
      = ([⟨"wait", "wait", "wait", "wait"⟩, allErrorStatus], false)
    ∧ perform_dry_run_checks (Except.ok false) ssh username
      = ([⟨"wait", "wait", "wait", "wait"⟩, ⟨"error", "wait", "wait", "wait"⟩], false) := by
  exact ⟨rfl, rfl⟩

/-! ## Per-host deployment workflow (`TaskService._deploy_lpar_loop`)

Each remote ssh call of the five steps is wrapped in `try/except`; an
exception there turns into an early `return "ERROR: ..."`.  But the local
results-directory recreation at the head of step 4
(`os.makedirs` / `shutil.rmtree` / `os.makedirs`, task_service.py:183-186)
sits outside every `try`, so an OSError raised there propagates out of the
coroutine uncaught.  We model the outcome of each fallible operation as an
`Except` value and the workflow's result as `Except Unit String`: `ok s`
for a returned string, `error ()` for a propagating exception. -/

def exceptOk {ε α : Type} (e : Except ε α) : Bool :=
  match e with
  | Except.ok _ => true
  | Except.error _ => false

structure DeployEnv where
  prepare : Except Unit String
  upload : String → Except Unit Unit
  execute : Except Unit String
  recreateResults : Except Unit Unit
  download : Except Unit Unit
  cleanup : Except Unit Unit

/-- The fixed ordered payload of step 2 (`files_to_load`). -/
def files_to_load : List String :=
  ["ipld_calc.awk", "ipld_parsing.awk", "patterns", "main.sh", "methods.sh"]

/-- Python `str.startswith`. -/
def startswith (s p : String) : Bool :=
  List.isPrefixOf p.data s.data

/-- The upload loop of step 2: the first failing upload returns the error
string (the source concatenates "...on upload" and "file {F} to {host}"
without a separating space). -/
def uploadFiles (env : DeployEnv) (lpar_hostname : String) : List String → Option String
  | [] => none
  | f :: rest =>
    match env.upload f with
    | Except.ok _ => uploadFiles env lpar_hostname rest
    | Except.error _ =>
      some ("ERROR: An error occured on upload" ++ "file " ++ f.toUpper ++ " to " ++ lpar_hostname)

/-- `TaskService._deploy_lpar_loop`: prepare the remote workspace, upload the
five payload files, execute main.sh, recreate the local results directory
(unwrapped — an exception here propagates), download the CSV results, clean
up; a wrapped step's exception returns the step's "ERROR: ..." string,
success returns the hostname. -/
def deploy_lpar_loop (env : DeployEnv) (lpar_hostname username qualifier : String) :
    Except Unit String :=
  match env.prepare with
  | Except.error _ => Except.ok "ERROR: An error occured on prepare the remote file space"
  | Except.ok _ =>
    match uploadFiles env lpar_hostname files_to_load with
    | some msg => Except.ok msg
    | none =>
      match env.execute with
      | Except.error _ => Except.ok "ERROR: An error occured running the main.sh"
      | Except.ok _ =>
        match env.recreateResults with
        | Except.error _ => Except.error ()
        | Except.ok _ =>
          match env.download with
          | Except.error _ => Except.ok "ERROR: An error occured downloading CSV results"
          | Except.ok _ =>
            match env.cleanup with
            | Except.error _ =>
              Except.ok ("ERROR: An cleaning up remote space on " ++ lpar_hostname)
            | Except.ok _ => Except.ok lpar_hostname

def envAllOk (env : DeployEnv) : Bool :=
  exceptOk env.prepare && (files_to_load.all fun f => exceptOk (env.upload f))
    && exceptOk env.execute && exceptOk env.recreateResults
    && exceptOk env.download && exceptOk env.cleanup

lemma startswith_append_left (p a t : String) (h : startswith a p = true) :
    startswith (a ++ t) p = true := by
  unfold startswith at h ⊢
  rw [String.data_append]
  rw [List.isPrefixOf_iff_prefix] at h ⊢
  exact h.trans (List.prefix_append _ _)

lemma uploadFiles_error (env : DeployEnv) (host : String) (fs : List String) {msg : String}
    (h : uploadFiles env host fs = some msg) : startswith msg "ERROR" = true := by
  induction fs with
  | nil => simp [uploadFiles] at h
  | cons f rest ih =>
    unfold uploadFiles at h
    cases hf : env.upload f with
    | ok _ =>
      rw [hf] at h
      exact ih h
    | error _ =>
      rw [hf] at h
      have hm : "ERROR: An error occured on upload" ++ "file " ++ f.toUpper
          ++ " to " ++ host = msg := by
        exact Option.some.inj h
      rw [← hm]
      apply startswith_append_left
      apply startswith_append_left
      apply startswith_append_left
      apply startswith_append_left
      decide

lemma uploadFiles_ok (env : DeployEnv) (host : String) (fs : List String)
    (h : fs.all (fun f => exceptOk (env.upload f)) = true) :
    uploadFiles env host fs = none := by
  induction fs with
  | nil => rfl
  | cons f rest ih =>
    rw [List.all_cons, Bool.and_eq_true] at h
    unfold uploadFiles
    cases hf : env.upload f with
    | ok _ => exact ih h.2
    | error _ =>
      rw [hf] at h
      simp [exceptOk] at h

/-! ## Claim C6: per-host errors are values, except the unwrapped local step -/

/-- An environment in which every remote call succeeds but the local
results-directory recreation raises an OSError. -/
def envLocalFsFails : DeployEnv :=
  ⟨Except.ok "", fun _ => Except.ok (), Except.ok "", Except.error (),
    Except.ok (), Except.ok ()⟩

/-- C6 (counterexample): an exception in the step-4 local results-directory
recreation — which sits outside every `try/except` — propagates out of the
per-host workflow instead of being returned as an "ERROR" string, refuting
the claim that no exception from the five steps escapes. -/
theorem deploy_loop_local_exception_propagates :
    deploy_lpar_loop envLocalFsFails "lpar1" "usr" "QUAL" = Except.error () := rfl

/-- C6 (amended): whenever the unwrapped local results-directory recreation
does not raise, the per-host workflow returns a value — the hostname when
every step succeeds, a string starting with "ERROR" naming the failed step
when a wrapped remote call raises; only an exception in that unwrapped local
step escapes the workflow. -/
theorem deploy_loop_error_as_value (env : DeployEnv) (lpar_hostname username qualifier : String) :
    (exceptOk env.recreateResults = true →
      deploy_lpar_loop env lpar_hostname username qualifier = Except.ok lpar_hostname
      ∨ ∃ msg, deploy_lpar_loop env lpar_hostname username qualifier = Except.ok msg
          ∧ startswith msg "ERROR" = true)
    ∧ (envAllOk env = true →
      deploy_lpar_loop env lpar_hostname username qualifier = Except.ok lpar_hostname) := by
  constructor
  · intro hrec
    unfold deploy_lpar_loop
    cases hp : env.prepare with
    | error _ =>
      exact Or.inr ⟨"ERROR: An error occured on prepare the remote file space",
        rfl, by decide⟩
    | ok _ =>
      cases hu : uploadFiles env lpar_hostname files_to_load with
      | some msg =>
        exact Or.inr ⟨msg, rfl, uploadFiles_error env lpar_hostname files_to_load hu⟩
      | none =>
        cases hx : env.execute with
        | error _ =>
          exact Or.inr ⟨"ERROR: An error occured running the main.sh", rfl, by decide⟩
        | ok _ =>
          cases hrc : env.recreateResults with
          | error _ =>
            rw [hrc] at hrec
            simp [exceptOk] at hrec
          | ok _ =>
            cases hd : env.download with
            | error _ =>
              exact Or.inr ⟨"ERROR: An error occured downloading CSV results", rfl, by decide⟩
            | ok _ =>
              cases hcl : env.cleanup with
              | error _ =>
                refine Or.inr ⟨"ERROR: An cleaning up remote space on " ++ lpar_hostname,
                  rfl, ?_⟩
                apply startswith_append_left
                decide
              | ok _ => exact Or.inl rfl
  · intro hok
    unfold envAllOk at hok
    simp only [Bool.and_eq_true] at hok
    obtain ⟨⟨⟨⟨⟨hp, hu⟩, hx⟩, hrc⟩, hd⟩, hcl⟩ := hok
    unfold deploy_lpar_loop
    cases hpc : env.prepare with
    | error _ => rw [hpc] at hp; simp [exceptOk] at hp
    | ok _ =>
      rw [uploadFiles_ok env lpar_hostname files_to_load hu]
      cases hxc : env.execute with
      | error _ => rw [hxc] at hx; simp [exceptOk] at hx
      | ok _ =>
        cases hrcc : env.recreateResults with
        | error _ => rw [hrcc] at hrc; simp [exceptOk] at hrc
        | ok _ =>
          cases hdc : env.download with
          | error _ => rw [hdc] at hd; simp [exceptOk] at hd
          | ok _ =>
            cases hcc : env.cleanup with
            | error _ => rw [hcc] at hcl; simp [exceptOk] at hcl
            | ok _ => rfl

/-- An environment in which every step succeeds. -/
def envAllOkConcrete : DeployEnv :=
  ⟨Except.ok "", fun _ => Except.ok (), Except.ok "", Except.ok (),
    Except.ok (), Except.ok ()⟩

/-- Witness for `deploy_loop_error_as_value`: with every step succeeding the
workflow returns the hostname. -/
theorem deploy_loop_error_as_value_witness :
    deploy_lpar_loop envAllOkConcrete "lpar1" "usr" "QUAL" = Except.ok "lpar1" :=
  (deploy_loop_error_as_value envAllOkConcrete "lpar1" "usr" "QUAL").2 (by decide)

/-! ## Scheduler registry (`AppScheduler.clear_jobs` / `schedule_task`)

The registry lives in the third-party `schedule` module: a list of jobs, each
carrying a set of tags.  `schedule.clear(tag)` deletes exactly the jobs whose
tag set contains `tag`; `schedule.clear()` deletes every job.  The repository
code adds one tag per job (`.tag(tag)`) and dispatches on Python truthiness
in `clear_jobs`. -/

structure SchedJob where
  tags : List String
  jobId : Nat
deriving DecidableEq, Repr

/-- The `schedule` library's `clear`: remove jobs matching the tag, or the
entire registry when no tag is given. -/
def scheduleClear (reg : List SchedJob) (tag : Option String) : List SchedJob :=
  match tag with
  | none => []
  | some t => reg.filter fun j => !(j.tags.contains t)

/-- `AppScheduler.clear_jobs`: `if tag: self._scheduler.clear(tag) else:
self._scheduler.clear()` — Python truthiness, so an empty-string tag routes
to the clear-everything branch. -/
def clear_jobs (reg : List SchedJob) (tag : Option String) : List SchedJob :=
  match tag with
  | some t => if t ≠ "" then scheduleClear reg (some t) else scheduleClear reg none
  | none => scheduleClear reg none

/-- The registry effect of `AppScheduler.schedule_task`: optionally wipe the
whole registry (`cancel_existing`), then register one new job carrying the
single tag `tag`. -/
def schedule_task (reg : List SchedJob) (tag : String) (cancelExisting : Bool)
    (jid : Nat) : List SchedJob :=
  (if cancelExisting then [] else reg) ++ [⟨[tag], jid⟩]

/-! ## Claim C7: clear_jobs frame property -/

/-- C7 (counterexample): calling `clear_jobs` with the empty-string tag — a
tag the registry's job does not carry — empties the whole registry, because
`if tag:` treats `""` as no tag at all. -/
theorem clear_jobs_empty_tag_clears_all :
    clear_jobs [⟨["SYSA"], 0⟩] (some "") = []
    ∧ (⟨["SYSA"], 0⟩ : SchedJob).tags.contains "" = false := by
  exact ⟨rfl, by decide⟩

/-- C7 (amended): for every registry and every non-empty tag, `clear_jobs`
removes exactly the jobs carrying that tag and keeps every other job (in
order); with no tag — or with the empty-string tag — it empties the entire
registry. -/
theorem clear_jobs_frame (reg : List SchedJob) (t : String) (ht : t ≠ "") :
    clear_jobs reg (some t) = reg.filter (fun j => !(j.tags.contains t))
    ∧ (∀ j ∈ clear_jobs reg (some t), j.tags.contains t = false)
    ∧ (∀ j ∈ reg, j.tags.contains t = false → j ∈ clear_jobs reg (some t))
    ∧ clear_jobs reg none = []
    ∧ clear_jobs reg (some "") = [] := by
  have hform : clear_jobs reg (some t) = reg.filter (fun j => !(j.tags.contains t)) := by
    simp [clear_jobs, scheduleClear, ht]
  refine ⟨hform, ?_, ?_, rfl, rfl⟩
  · intro j hj
    rw [hform, List.mem_filter] at hj
    simpa using hj.2
  · intro j hj hc
    rw [hform, List.mem_filter]
    refine ⟨hj, ?_⟩
    simp only [Bool.not_eq_true']
    exact hc

/-- Witness for `clear_jobs_frame`: the spec's scenario — registry with a
"SYSA" job and a "SYSB" job; clearing "SYSA" removes only that job. -/
theorem clear_jobs_frame_witness :
    clear_jobs [⟨["SYSA"], 0⟩, ⟨["SYSB"], 1⟩] (some "SYSA")
      = List.filter (fun j => !(SchedJob.tags j).contains "SYSA")
          [⟨["SYSA"], 0⟩, ⟨["SYSB"], 1⟩] :=
  (clear_jobs_frame [⟨["SYSA"], 0⟩, ⟨["SYSB"], 1⟩] "SYSA" (by decide)).1

/-! ## CSV ingestion gate (`zplatipld_ingest`)

The table-exists branch of `zplatipld_ingest`: the set of already ingested
`log_dataset` identifiers is read once; each discovered CSV file larger than
205 bytes is scanned, and for each distinct `log_dataset` value of the file
that is not among the ingested identifiers, the file's rows are appended
wholesale and the file's distinct sysnames recorded.  (`drop_duplicates` is
modelled with `List.dedup`; only membership in the resulting list matters to
the gate.) -/

structure CsvRow where
  log_dataset : String
  sysname : String
deriving DecidableEq, Repr

structure CsvFile where
  size : Nat
  rows : List CsvRow
deriving DecidableEq, Repr

/-- Ingest one discovered CSV file into (raw store, sysname batches). -/
def ingest_file (ingested : List String) (acc : List CsvRow × List (List String))
    (f : CsvFile) : List CsvRow × List (List String) :=
  if 205 < f.size then
    let datasets := (f.rows.map CsvRow.log_dataset).dedup
    let sysnames := (f.rows.map CsvRow.sysname).dedup
    datasets.foldl
      (fun acc2 d =>
        if d ∈ ingested then acc2
        else (acc2.1 ++ f.rows,
              if sysnames.length ≠ 0 then acc2.2 ++ [sysnames] else acc2.2))
      acc
  else acc

/-- `zplatipld_ingest` over the discovered files (table-exists branch):
returns the final raw store and the list of sysname batches to
duration-ingest. -/
def zplatipld_ingest (store : List CsvRow) (files : List CsvFile) :
    List CsvRow × List (List String) :=
  let ingested := (store.map CsvRow.log_dataset).dedup
  files.foldl (ingest_file ingested) (store, [])

/-! ## Claim C8: ingestion is idempotent at file granularity -/

lemma ingest_file_noop (ingested : List String) (acc : List CsvRow × List (List String))
    (f : CsvFile) (h : ∀ r ∈ f.rows, r.log_dataset ∈ ingested) :
    ingest_file ingested acc f = acc := by
  unfold ingest_file
  by_cases hs : 205 < f.size
  · rw [if_pos hs]
    have hds : ∀ d ∈ (f.rows.map CsvRow.log_dataset).dedup, d ∈ ingested := by
      intro d hd
      rw [List.mem_dedup, List.mem_map] at hd
      obtain ⟨r, hr, rfl⟩ := hd
      exact h r hr
    generalize (f.rows.map CsvRow.log_dataset).dedup = ds at hds
    induction ds generalizing acc with
    | nil => rfl
    | cons d rest ih =>
      rw [List.foldl_cons, if_pos (hds d (by simp))]
      exact ih acc fun x hx => hds x (by simp [hx])
  · rw [if_neg hs]

/-- C8: re-running the raw-CSV ingest when every `log_dataset` value of every
discovered file is already among the ingested identifiers appends no rows:
the raw store is returned unchanged and no system is queued for duration
ingestion. -/
theorem reingest_seen_files_noop (store : List CsvRow) (files : List CsvFile)
    (h : ∀ f ∈ files, ∀ r ∈ f.rows, r.log_dataset ∈ store.map CsvRow.log_dataset) :
    zplatipld_ingest store files = (store, []) := by
  unfold zplatipld_ingest
  induction files with
  | nil => rfl
  | cons f fs ih =>
    rw [List.foldl_cons, ingest_file_noop]
    · exact ih fun g hg => h g (by simp [hg])
    · intro r hr
      rw [List.mem_dedup]
      exact h f (by simp) r hr

/-- Witness for `reingest_seen_files_noop`: a store already holding dataset
"DS1" and a large-enough file containing only "DS1" rows — nothing is
appended. -/
theorem reingest_seen_files_noop_witness :
    zplatipld_ingest [⟨"DS1", "SYSA"⟩] [⟨300, [⟨"DS1", "SYSA"⟩]⟩]
      = ([⟨"DS1", "SYSA"⟩], []) :=
  reingest_seen_files_noop [⟨"DS1", "SYSA"⟩] [⟨300, [⟨"DS1", "SYSA"⟩]⟩] (by decide)

/-! ## Deployment orchestration (`TaskService.run_deploy_tasks`)

`run_deploy_tasks` resolves the batch; an empty batch emits a single
100-percent "No LPARs" snapshot and returns.  Otherwise it builds the
per-run status dict mapping each hostname to "wait" and emits the initial
`task_progress` snapshot at 10 percent.  The very next statement,
`with (concurrent.futures, concurrent.futures.ThreadPoolExecutor(...) as executor,):`
(task_service.py:263), uses the module `concurrent.futures` itself as a
context manager, which raises `TypeError: 'module' object does not support
the context manager protocol`.  The completion loop below it — the code
that would submit the per-host coroutines, mark hosts done or error, and
emit per-completion snapshots — is therefore unreachable; the exception
propagates to the caller with every status entry still "wait".  We model
the call as the triple (emitted snapshots, status dict at the moment the
exception escapes, whether the TypeError was raised). -/

/-- Python dict assignment `m[k] = v` on an insertion-ordered assoc list. -/
def dictSet (m : List (String × String)) (k v : String) : List (String × String) :=
  if m.any (fun p => p.1 == k) then
    m.map fun p => if p.1 == k then (k, v) else p
  else m ++ [(k, v)]

/-- Python dict lookup. -/
def dictGet (m : List (String × String)) (k : String) : Option String :=
  (m.find? fun p => p.1 == k).map Prod.snd

/-- The dict comprehension building the per-run status map, every hostname
mapped to "wait". -/
def initStatus (hosts : List String) : List (String × String) :=
  hosts.foldl (fun m h => dictSet m h "wait") []

/-- One emitted `task_progress` payload. -/
structure Snapshot where
  result : List String
  percent : Rat
  error : Option String
deriving DecidableEq, Repr

/-- The formatted status lines of a `task_progress` payload. -/
def fmtStatus (m : List (String × String)) : List String :=
  m.map fun p => "'" ++ p.1 ++ "': '" ++ p.2 ++ "'"

/-- `TaskService.run_deploy_tasks`: the "No LPARs" early return, or the
initial all-wait snapshot at 10 percent immediately followed by the
TypeError at the malformed `with` statement.  Returns (emitted snapshots,
status dict when the call ends, whether the TypeError was raised). -/
def run_deploy_tasks (hosts : List String) :
    List Snapshot × List (String × String) × Bool :=
  if hosts.isEmpty then
    ([⟨[], 100, some "No LPARs found for given IDs"⟩], [], false)
  else
    ([⟨fmtStatus (initStatus hosts), 10, none⟩], initStatus hosts, true)

/-! ### Dict lemmas -/

lemma dictGet_dictSet_self (m : List (String × String)) (k v : String) :
    dictGet (dictSet m k v) k = some v := by
  unfold dictSet
  by_cases hmem : m.any (fun p => p.1 == k) = true
  · rw [if_pos hmem]
    induction m with
    | nil => simp at hmem
    | cons p rest ih =>
      unfold dictGet
      rw [List.map_cons]
      by_cases hp : (p.1 == k) = true
      · rw [if_pos hp]
        simp only [List.find?_cons, beq_self_eq_true]
        rfl
      · have hpf : (p.1 == k) = false := Bool.eq_false_iff.mpr hp
        rw [if_neg hp]
        simp only [List.find?_cons, hpf]
        have hr : rest.any (fun p => p.1 == k) = true := by
          rw [List.any_cons, Bool.or_eq_true] at hmem
          rcases hmem with hm | hm
          · exact absurd hm hp
          · exact hm
        exact ih hr
  · rw [if_neg hmem]
    unfold dictGet
    rw [List.find?_append]
    have h1 : m.find? (fun p => p.1 == k) = none := by
      rw [List.find?_eq_none]
      intro x hx hxk
      exact hmem (List.any_eq_true.mpr ⟨x, hx, hxk⟩)
    rw [h1]
    simp [List.find?_cons, beq_self_eq_true]

lemma find?_map_update (m : List (String × String)) (k k' v : String)
    (hne : (k' == k) = false) :
    (m.map fun p => if p.1 == k' then (k', v) else p).find? (fun p => p.1 == k)
      = m.find? (fun p => p.1 == k) := by
  induction m with
  | nil => rfl
  | cons p rest ih =>
    rw [List.map_cons]
    by_cases hp : (p.1 == k') = true
    · have hpe : p.1 = k' := eq_of_beq hp
      have hpk : (p.1 == k) = false := by rw [hpe]; exact hne
      rw [if_pos hp]
      simp only [List.find?_cons, hne, hpk]
      exact ih
    · rw [if_neg hp]
      cases hpk : (p.1 == k) with
      | false =>
        simp only [List.find?_cons, hpk]
        exact ih
      | true => simp only [List.find?_cons, hpk]

lemma dictGet_dictSet_ne (m : List (String × String)) (k k' v : String)
    (hne : (k' == k) = false) :
    dictGet (dictSet m k' v) k = dictGet m k := by
  unfold dictSet dictGet
  by_cases hmem : m.any (fun p => p.1 == k') = true
  · rw [if_pos hmem, find?_map_update m k k' v hne]
  · rw [if_neg hmem, List.find?_append]
    have h2 : List.find? (fun p => p.1 == k) [(k', v)] = none := by
      simp [List.find?, hne]
    rw [h2]
    simp

lemma initStatus_mem_wait (hosts : List String) (m : List (String × String)) (h : String)
    (hd : dictGet m h = some "wait" ∨ h ∈ hosts) :
    dictGet (hosts.foldl (fun m h => dictSet m h "wait") m) h = some "wait" := by
  induction hosts generalizing m with
  | nil =>
    rcases hd with hw | hmem
    · exact hw
    · simp at hmem
  | cons a rest ih =>
    show dictGet (rest.foldl (fun m h => dictSet m h "wait") (dictSet m a "wait")) h
        = some "wait"
    apply ih
    by_cases hha : h = a
    · subst hha
      exact Or.inl (dictGet_dictSet_self m h "wait")
    · rcases hd with hw | hmem
      · refine Or.inl ?_
        rw [dictGet_dictSet_ne]
        · exact hw
        · rw [beq_eq_false_iff_ne]
          exact fun e => hha e.symm
      · rcases List.mem_cons.mp hmem with he | hr
        · exact absurd he hha
        · exact Or.inr hr

lemma initStatus_wait (hosts : List String) (h : String) (hh : h ∈ hosts) :
    dictGet (initStatus hosts) h = some "wait" :=
  initStatus_mem_wait hosts [] h (Or.inr hh)

/-! ## Claim C4: progress snapshot ordering -/

/-- C4: the claimed per-completion snapshot stream never occurs.  For every
non-empty batch, `run_deploy_tasks` emits exactly one snapshot — the
initial all-Waiting snapshot at 10 percent with a null error field — and
then raises the TypeError at the malformed `with (concurrent.futures, ...)`
statement: the loop that would emit snapshots with
`percent = completed/total*100` and cumulative error text is unreachable. -/
theorem run_deploy_tasks_typeerror (hosts : List String) (hne : hosts ≠ []) :
    run_deploy_tasks hosts
      = ([⟨fmtStatus (initStatus hosts), 10, none⟩], initStatus hosts, true)
    ∧ (run_deploy_tasks hosts).1.length = 1 := by
  have he : hosts.isEmpty = false := by
    cases hosts with
    | nil => exact absurd rfl hne
    | cons a l => rfl
  have h1 : run_deploy_tasks hosts
      = ([⟨fmtStatus (initStatus hosts), 10, none⟩], initStatus hosts, true) := by
    unfold run_deploy_tasks
    rw [if_neg (by simp [he])]
  exact ⟨h1, by rw [h1]; rfl⟩

/-- Witness for `run_deploy_tasks_typeerror`: a one-host batch emits only
the initial snapshot and the TypeError escapes. -/
theorem run_deploy_tasks_typeerror_witness :
    run_deploy_tasks ["h1"]
      = ([⟨["'h1': 'wait'"], 10, none⟩], [("h1", "wait")], true) := by
  have h := run_deploy_tasks_typeerror ["h1"] (by decide)
  rw [h.1]
  rfl

/-! ## Claim C5: hosts never settle -/

/-- C5: refuted by the same TypeError — for every non-empty batch,
`run_deploy_tasks` raises before any future is submitted, so when the
exception escapes every host's entry in the per-run status map still reads
"wait": no host is ever marked done or error, and the function never
returns normally. -/
theorem hosts_remain_wait (hosts : List String) (hne : hosts ≠ [])
    (h : String) (hh : h ∈ hosts) :
    dictGet (run_deploy_tasks hosts).2.1 h = some "wait"
    ∧ (run_deploy_tasks hosts).2.2 = true := by
  have he : hosts.isEmpty = false := by
    cases hosts with
    | nil => exact absurd rfl hne
    | cons a l => rfl
  have h1 : run_deploy_tasks hosts
      = ([⟨fmtStatus (initStatus hosts), 10, none⟩], initStatus hosts, true) := by
    unfold run_deploy_tasks
    rw [if_neg (by simp [he])]
  rw [h1]
  exact ⟨initStatus_wait hosts h hh, rfl⟩

/-- Witness for `hosts_remain_wait`: the single host of a one-host batch is
still "wait" when the TypeError escapes. -/
theorem hosts_remain_wait_witness :
    dictGet (run_deploy_tasks ["h1"]).2.1 "h1" = some "wait"
    ∧ (run_deploy_tasks ["h1"]).2.2 = true :=
  hosts_remain_wait ["h1"] (by decide) "h1" (by decide)

end IPLD
